import Mathlib

/-!
Shallow embedding of the semantic-analysis core of the bingo language
server (`langserver` package): position resolution, multi-package
disambiguation, the typecheck pass's file-list construction and error
handling, and the memoizing typecheck cache wrapper.

Go machine integers never overflow in the embedded fragment (they index
lists and count lines), so they are modelled as `Nat`.  Go slices and
maps are modelled as lists; the map built by
`buildPackageForNamedFileInMultiPackageDir` writes entries in order, so
its lookup takes the last matching entry and returns `""` when the key
is absent, exactly like a Go map of strings.
-/

set_option autoImplicit false

namespace Bingo

/-- Go struct `go/build.MultiplePackageError`: parallel lists of files and the
package (unit) names their package clauses declare.  The Go struct
carries `Files []string` and `Packages []string` indexed in parallel. -/
structure MultiplePackageError where
  Files : List String
  Packages : List String
  deriving Repr, DecidableEq

/-- A `go/token.File`: a name plus a base offset into the file set's
global position space; `size` is the file's byte size. -/
structure TokenFile where
  name : String
  base : Nat
  size : Nat
  deriving Repr, DecidableEq

/-- Method `go/token.File.Pos`: the position of byte `offset` inside `f` is
`f.base + offset`. -/
def filePos (f : TokenFile) (offset : Nat) : Nat :=
  f.base + offset

/-- Sentinel `go/token.NoPos`: the zero sentinel position. -/
def NoPos : Nat := 0

/-- Go struct `golang.org/x/tools/go/packages.Package`, restricted to the fields
the embedded code touches: `PkgPath`, `Name`, `GoFiles` and the file
set `Fset` the analysis registered its files in. -/
structure Package where
  PkgPath : String
  Name : String
  GoFiles : List String
  Fset : List TokenFile
  deriving Repr, DecidableEq

/-- Modelled from the spec: `util.PathEqual` is not under `src/`; the
spec only speaks of a file of the source map that "path-equals the
requested filename", so path equality is modelled as string equality
of the two paths. -/
def PathEqual (a b : String) : Bool :=
  a == b

/-- Function `posForFileOffset` (source lines 27-40): iterate over the file set,
stop at the first file whose name path-equals `filename`; if none
matches return `NoPos`, otherwise that file's position at `offset`. -/
def posForFileOffset (fset : List TokenFile) (filename : String) (offset : Nat) : Nat :=
  match fset.find? (fun ff => PathEqual ff.name filename) with
  | none => NoPos
  | some f => filePos f offset

/-- The map `fileToPkgName` of `buildPackageForNamedFileInMultiPackageDir`
(source lines 52-55): built by `fileToPkgName[f] = m.Packages[i]` over
`i, f := range m.Files`, so a later entry for the same file overwrites
an earlier one, and a Go map lookup of an absent string key yields `""`. -/
def fileToPkgName (m : MultiplePackageError) (f : String) : String :=
  match ((m.Files.zip m.Packages).filter (fun p => p.1 == f)).getLast? with
  | some p => p.2
  | none => ""

/-- Go function `strings.HasSuffix`: does `s` end with `suf`?  Stated
over the character lists of the strings so that it evaluates inside
the kernel. -/
def strEndsWith (s suf : String) : Bool :=
  if suf.data.length ≤ s.data.length then
    s.data.drop (s.data.length - suf.data.length) == suf.data
  else false

/-- Go function `strings.TrimSuffix`: drop `suf` from the end of `s` when present,
otherwise return `s` unchanged. -/
def trimSuffix (s suf : String) : String :=
  if strEndsWith s suf then String.mk (s.data.take (s.data.length - suf.data.length)) else s

/-- The closure `filterToFilesInPackage` (source lines 62-70): keep the
files whose mapped unit name equals `pkgName`, in order, in a freshly
built list. -/
def filterToFilesInPackage (m : MultiplePackageError) (files : List String) (pkgName : String) : List String :=
  files.filter (fun f => fileToPkgName m f == pkgName)

/-- Value `nonXTestPkgName` as computed at source lines 83-88: strip the
`"_test"` suffix when present. -/
def nonXTestPkgName (pkgName : String) : String :=
  if strEndsWith pkgName "_test" then trimSuffix pkgName "_test" else pkgName

/-- Function `buildPackageForNamedFileInMultiPackageDir` (source lines 47-91):
copy the package descriptor, look the requested file up in the
file-to-unit map, fail when the lookup yields `""`, otherwise rename
the copy to the file's unit and trim its `GoFiles` to the files of the
non-external-test base unit name. -/
def buildPackageForNamedFileInMultiPackageDir (bpkg : Package) (m : MultiplePackageError) (filename : String) : Except String Package :=
  let pkgName := fileToPkgName m filename
  if pkgName == "" then
    .error ("package " ++ bpkg.PkgPath ++ " has no file " ++ filename)
  else
    .ok { bpkg with
          Name := pkgName
          GoFiles := filterToFilesInPackage m bpkg.GoFiles (nonXTestPkgName pkgName) }

/-- A store of `packages.Package` values addressed by index: the heap
model used to observe that the Go code mutates only its private copy
(`copy := *bpkg; bpkg = &copy`, source lines 48-49) and never the
caller's descriptor. -/
abbrev PkgStore := List Package

/-- Function `buildPackageForNamedFileInMultiPackageDir` against the heap model:
the input is an address into the store; the struct copy allocates a
fresh cell at the end of the store, and the two field assignments
(`bpkg.Name = ...`, `bpkg.GoFiles = ...`, source lines 74 and 89)
write through the fresh address only.  Returns the new store and the
address of the result. -/
def buildPackageForNamedFileInMultiPackageDirHeap (st : PkgStore) (addr : Nat) (m : MultiplePackageError) (filename : String) : Except String (PkgStore × Nat) :=
  match (st : List Package).get? addr with
  | none => .error "invalid address"
  | some orig =>
    if fileToPkgName m filename == "" then
      .error ("package " ++ orig.PkgPath ++ " has no file " ++ filename)
    else
      .ok ((((st : List Package) ++ [orig]).set (st : List Package).length
          { orig with Name := fileToPkgName m filename }).set (st : List Package).length
          { orig with
            Name := fileToPkgName m filename
            GoFiles := filterToFilesInPackage m orig.GoFiles
              (nonXTestPkgName (fileToPkgName m filename)) },
        (st : List Package).length)

/-- Go struct `go/build.Package`, restricted to the fields `typecheck` and
`cachedTypecheck` touch. -/
structure BuildPackage where
  ImportPath : String
  Dir : String
  Name : String
  GoFiles : List String
  TestGoFiles : List String
  XTestGoFiles : List String
  deriving Repr, DecidableEq

/-- Go function `buildutil.JoinPath` with the default build context: `path.Join` of
directory and file name. -/
def joinPath (dir file : String) : String :=
  dir ++ "/" ++ file

/-- The `goFiles` list built by `typecheck` (source lines 180-188):
primary files, then in-package test files, then — only when the unit
name ends in `"_test"` — external test files, each joined with the
package directory. -/
def typecheckGoFiles (bpkg : BuildPackage) : List String :=
  let goFiles := ([] : List String) ++ bpkg.GoFiles
  let goFiles := goFiles ++ bpkg.TestGoFiles
  let goFiles := if strEndsWith bpkg.Name "_test" then goFiles ++ bpkg.XTestGoFiles else goFiles
  goFiles.map (fun filename => joinPath bpkg.Dir filename)

/-- The semantic program representation produced by `loader.Config.Load`,
treated as opaque: the embedded code only compares it against `nil`. -/
structure Program where
  progId : Nat
  deriving Repr, DecidableEq

/-- A structured diagnostic record. -/
structure Diagnostic where
  message : String
  deriving Repr, DecidableEq

/-- The outcome of `conf.Load()` inside `typecheck`: an optional program
(`nil` when no representation could be built) and an optional error. -/
structure LoadOutcome where
  prog : Option Program
  err : Option String
  deriving Repr, DecidableEq

/-- Modelled from the spec: `errsToDiagnostics` is not under `src/`.
Per the spec (§4.5 Diagnostics Extractor), it is a pure transformation
of the collected errors into position-anchored diagnostic records with
"no failure modes of its own" — "never a hard failure" — so its error
component is always `none`. -/
def errsToDiagnostics (typeErrs : List String) (_prog : Option Program) : List Diagnostic × Option String :=
  (typeErrs.map (fun e => { message := e }), none)

/-- The error-handling tail of `typecheck` (source lines 190-198): after
`conf.Load()` the pass fails terminally only when `err != nil && prog
== nil`; otherwise the collected type errors are converted to
diagnostics and the program is returned.  `load` is the outcome of
`conf.Load()` and `typeErrs` the errors collected by the
`TypeChecker.Error` callback. -/
def typecheck (load : LoadOutcome) (typeErrs : List String) : Option Program × List Diagnostic × Option String :=
  if load.err.isSome && load.prog.isNone then
    (none, [], load.err)
  else
    let (diags, err) := errsToDiagnostics typeErrs load.prog
    if err.isSome then (none, [], err)
    else (load.prog, diags, none)

/-- Struct `typecheckKey` (source lines 93-101): the cache key triple. -/
structure TypecheckKey where
  importPath : String
  srcDir : String
  name : String
  deriving Repr, DecidableEq

/-- Struct `typecheckResult` (source lines 103-107). -/
structure TypecheckResult where
  fset : Option (List TokenFile)
  prog : Option Program
  err : Option String
  deriving Repr, DecidableEq

/-- Modelled from the spec: the bounded cache behind `h.typecheckCache`
is not under `src/`.  Per the spec (§4.3), `Get` on the first call for
a key invokes `computeFn` exactly once and stores the result; a later
call with an equal key returns the stored result without
recomputation; concurrent callers of one key are serialized ("must
block ... and receive the identical result"), so a run of the cache is
a linearized sequence of `Get` calls over an association-list state.
Returns the result, the new state, and whether `computeFn` ran. -/
def cacheGet {α : Type} (st : List (TypecheckKey × α)) (k : TypecheckKey) (f : Unit → α) : α × List (TypecheckKey × α) × Bool :=
  match st.find? (fun p => decide (p.1 = k)) with
  | some p => (p.2, st, false)
  | none =>
    let v := f ()
    (v, st ++ [(k, v)], true)

/-- A linearized run of `Get` calls whose `computeFn` increments a
shared counter and returns its new value (the spec's §8 test harness):
threads the cache state and the counter through the calls and collects
every caller's result. -/
def runCounterGets : List TypecheckKey → List (TypecheckKey × Nat) → Nat → List (TypecheckKey × Nat) × Nat × List Nat
  | [], st, c => (st, c, [])
  | k :: rest, st, c =>
    let (r, st1, ran) := cacheGet st k (fun _ => c + 1)
    let c1 := if ran then c + 1 else c
    let (stF, cF, rs) := runCounterGets rest st1 c1
    (stF, cF, r :: rs)

/-- A tracing span as started by `cachedTypecheck` (source lines
110-116): its name, its `pkg` tag, and whether it was created as a
child of the span found in the caller's context. -/
structure SpanRecord where
  name : String
  pkgTag : String
  childOfCaller : Bool
  deriving Repr, DecidableEq

/-- Everything `cachedTypecheck` produces: the returned quadruple, the
cache state after the call, the spans it started, and whether the
`computeFn` closure ran. -/
structure CachedOutput where
  fset : Option (List TokenFile)
  prog : Option Program
  diags : List Diagnostic
  err : Option String
  cacheAfter : List (TypecheckKey × TypecheckResult)
  spans : List SpanRecord
  computeRan : Bool
  deriving Repr, DecidableEq

/-- Function `cachedTypecheck` (source lines 109-132).  The span is started at
function entry, before the cache is consulted.  `panicked` selects the
path where `Get` returns `nil` ("This can happen if we panic", source
line 127); `compute` is the underlying typecheck, returning the result
triple stored in the cache together with the diagnostics the closure
assigns to the outer `diags` variable.  On a cache hit the closure
does not run, so the returned diagnostics stay the zero value `[]`. -/
def cachedTypecheck (panicked : Bool) (st : List (TypecheckKey × TypecheckResult)) (bpkg : BuildPackage) (compute : Unit → TypecheckResult × List Diagnostic) : CachedOutput :=
  let span : SpanRecord :=
    { name := "langserver-go: typecheck", pkgTag := bpkg.ImportPath, childOfCaller := true }
  let key : TypecheckKey := { importPath := bpkg.ImportPath, srcDir := bpkg.Dir, name := bpkg.Name }
  if panicked then
    { fset := none, prog := none, diags := [], err := none
      cacheAfter := st, spans := [span], computeRan := false }
  else
    match st.find? (fun p => decide (p.1 = key)) with
    | some p =>
      { fset := p.2.fset, prog := p.2.prog, diags := [], err := p.2.err
        cacheAfter := st, spans := [span], computeRan := false }
    | none =>
      let rd := compute ()
      { fset := rd.1.fset, prog := rd.1.prog, diags := rd.2, err := rd.1.err
        cacheAfter := st ++ [(key, rd.1)], spans := [span], computeRan := true }

/-- Modelled from the spec: `offsetForPosition` is not under `src/`.
Per the spec (§4.1 Position Resolver), it turns file contents and a
(line, column) pair into a byte offset, failing "when the line/column
falls outside the file's line table or the column exceeds the line's
byte length", with a human-readable reason.  Contents are modelled as
the file's list of newline-separated lines (bytes as characters).
Returns `(offset, valid, whyInvalid)` like the Go function. -/
def offsetForPosition (contents : List String) (line col : Nat) : Nat × Bool × String :=
  match contents[line]? with
  | none => (0, false, "line out of range")
  | some l =>
    if l.length < col then (0, false, "column beyond line end")
    else ((contents.take line).foldl (fun acc s => acc + s.length + 1) 0 + col, true, "")

/-- Go function `path.Base`: the last component of a slash-separated path (the only
use here passes non-empty file paths without trailing slashes). -/
def pathBase (s : String) : String :=
  ((s.splitOn "/").getLast?).getD s

/-- The outcome of `h.load` inside `loadPackage` (source lines
252-260): a package, or a package together with a
`build.MultiplePackageError`, or a plain error. -/
inductive LoadResult where
  | ok (pkg : Package)
  | multiErr (pkg : Package) (m : MultiplePackageError)
  | err (e : String)
  deriving Repr, DecidableEq

/-- Function `loadPackage` (source lines 235-295), with its effectful
collaborators injected as arguments: `isURI` is `util.IsURI(fileURI)`,
`load` the outcome of `h.load`, `readFile` the outcome of
`h.readFile` (file contents as lines), and `(line, col)` the requested
position.  Returns the Go triple `(pkg, start, err)`: the start
position is `NoPos` on every failure path. -/
def loadPackage (isURI : Bool) (filename : String) (load : LoadResult) (readFile : Except String (List String)) (line col : Nat) : Option Package × Nat × Option String :=
  if !isURI then
    (none, NoPos, some "typechecking of out-of-workspace URI is not yet supported")
  else
    let pkgResult : Except String Package :=
      match load with
      | .ok pkg => .ok pkg
      | .multiErr pkg m => buildPackageForNamedFileInMultiPackageDir pkg m (pathBase filename)
      | .err e => .error e
    match pkgResult with
    | .error e => (none, NoPos, some e)
    | .ok pkg =>
      match readFile with
      | .error e => (none, NoPos, some e)
      | .ok contents =>
        let (offset, valid, why) := offsetForPosition contents line col
        if !valid then
          (none, NoPos, some ("invalid position: " ++ filename ++ ":" ++ toString line ++ ":"
            ++ toString col ++ " (" ++ why ++ ")"))
        else
          let start := posForFileOffset pkg.Fset filename offset
          if start = NoPos then
            (none, NoPos, some ("invalid location: " ++ filename ++ ":#" ++ toString offset))
          else
            (some pkg, start, none)

/-! Concrete fixtures used to instantiate theorems with hypotheses. -/

/-- A minimal concrete `build.Package`. -/
def bpkg0 : BuildPackage :=
  { ImportPath := "p", Dir := "d", Name := "n"
    GoFiles := [], TestGoFiles := [], XTestGoFiles := [] }

/-- The cache key of `bpkg0`. -/
def key0 : TypecheckKey := { importPath := "p", srcDir := "d", name := "n" }

/-- A stored typecheck result. -/
def res0 : TypecheckResult := { fset := none, prog := none, err := none }

/-- A minimal concrete `packages.Package`. -/
def pkg0 : Package := { PkgPath := "p", Name := "pkg", GoFiles := [], Fset := [] }

/-- A two-unit directory: `a.go` declares unit `pkg`, `b.go` declares
the external-test unit `pkg_test`. -/
def m1 : MultiplePackageError := { Files := ["a.go", "b.go"], Packages := ["pkg", "pkg_test"] }

/-- The package descriptor of that directory before disambiguation. -/
def pkg1 : Package := { PkgPath := "p", Name := "pkg", GoFiles := ["a.go", "b.go"], Fset := [] }

/-! Theorems settling the claims. -/

/-- C3: the file list `typecheck` builds for a unit is exactly the
unit's primary files followed by its in-package test files, and
additionally its external test files if and only if the unit's name
ends in `"_test"`; otherwise external test files are excluded. -/
theorem typecheck_file_list_c3 (bpkg : BuildPackage) :
    typecheckGoFiles bpkg =
      (bpkg.GoFiles ++ bpkg.TestGoFiles ++
        (if strEndsWith bpkg.Name "_test" = true then bpkg.XTestGoFiles else [])).map
        (fun filename => joinPath bpkg.Dir filename) := by
  unfold typecheckGoFiles
  by_cases h : strEndsWith bpkg.Name "_test" = true <;> simp [h, List.append_assoc]

/-- C10: when the cache's `Get` returns `nil` (the path reached when
the computation panicked), `cachedTypecheck` returns a nil file set, a
nil program and a nil error, so the caller observes neither a result
nor an error. -/
theorem cachedTypecheck_panic_nil_c10 (st : List (TypecheckKey × TypecheckResult)) (bpkg : BuildPackage) (compute : Unit → TypecheckResult × List Diagnostic) :
    (cachedTypecheck true st bpkg compute).fset = none ∧
    (cachedTypecheck true st bpkg compute).prog = none ∧
    (cachedTypecheck true st bpkg compute).err = none := by
  refine ⟨rfl, rfl, rfl⟩

/-- C8 counterexample: at a concrete state that already holds the key
of `bpkg0` (a cache hit, where `computeFn` does not run), a
`"langserver-go: typecheck"` span is still started, refuting the claim
that a span is created exactly on cache misses. -/
theorem cachedTypecheck_span_on_hit_c8_counterexample :
    (cachedTypecheck false [(key0, res0)] bpkg0 (fun _ => (res0, []))).computeRan = false ∧
    (cachedTypecheck false [(key0, res0)] bpkg0 (fun _ => (res0, []))).spans =
      [{ name := "langserver-go: typecheck", pkgTag := "p", childOfCaller := true }] := by
  refine ⟨by decide, by decide⟩

/-- C8 amended: a traced span named `"langserver-go: typecheck"`,
tagged with the unit's import path and parented to the caller's span,
is started on every call to `cachedTypecheck` — before the cache is
consulted — so it wraps cache hits, cache misses and the panic path
alike. -/
theorem cachedTypecheck_span_every_call_c8 (panicked : Bool) (st : List (TypecheckKey × TypecheckResult)) (bpkg : BuildPackage) (compute : Unit → TypecheckResult × List Diagnostic) :
    (cachedTypecheck panicked st bpkg compute).spans =
      [{ name := "langserver-go: typecheck", pkgTag := bpkg.ImportPath, childOfCaller := true }] := by
  cases hf : List.find? (fun p => decide (p.1 = TypecheckKey.mk bpkg.ImportPath bpkg.Dir bpkg.Name)) st <;>
    cases panicked <;> simp [cachedTypecheck, hf]

/-- C4: `typecheck` fails terminally only when `conf.Load` produces no
program at all; whenever a program is produced, the collected errors
are converted to diagnostics and the program is returned with no
terminal error. -/
theorem typecheck_terminal_error_c4 (load : LoadOutcome) (typeErrs : List String) :
    ((typecheck load typeErrs).2.2.isSome = true →
      load.prog = none ∧ load.err.isSome = true) ∧
    (∀ p : Program, load.prog = some p →
      typecheck load typeErrs =
        (some p, typeErrs.map (fun e => { message := e }), none)) := by
  obtain ⟨prog, err⟩ := load
  cases prog <;> cases err <;> simp [typecheck, errsToDiagnostics]

/-- C4 witness: a load outcome that produced a program yields that
program, the diagnostics of the collected errors, and no error. -/
theorem typecheck_terminal_error_c4_witness :
    typecheck { prog := some { progId := 0 }, err := none } ["e"] =
      (some { progId := 0 }, [{ message := "e" }], none) :=
  (typecheck_terminal_error_c4 { prog := some { progId := 0 }, err := none } ["e"]).2
    { progId := 0 } rfl

/-- Helper: once the counter cache holds `(k, v)`, every further `Get`
for `k` is a hit: the state and the counter are unchanged and every
caller receives the stored `v`. -/
theorem runCounterGets_hit (m : Nat) (k : TypecheckKey) (v c : Nat) :
    runCounterGets (List.replicate m k) [(k, v)] c = ([(k, v)], c, List.replicate m v) := by
  induction m with
  | zero => rfl
  | succ n ih =>
    rw [List.replicate_succ, List.replicate_succ]
    simp [runCounterGets, cacheGet, ih]

/-- C2: a linearized run of `n + 1` `Get` calls for one key, whose
`computeFn` increments a shared counter, runs the computation exactly
once (the final counter is `1`), stores its result under the key, and
hands every one of the `n + 1` callers the identical stored result. -/
theorem cache_computes_once_c2 (n : Nat) (k : TypecheckKey) :
    runCounterGets (List.replicate (n + 1) k) [] 0 =
      ([(k, 1)], 1, List.replicate (n + 1) 1) := by
  rw [List.replicate_succ, List.replicate_succ]
  simp [runCounterGets, cacheGet, runCounterGets_hit n k 1 1]

/-- Helper: a member of the left list of a zip of equal-length lists
appears as the first component of some pair of the zip. -/
theorem exists_zip_pair_of_mem {α β : Type} (l₁ : List α) (l₂ : List β) (a : α)
    (hlen : l₁.length = l₂.length) (ha : a ∈ l₁) : ∃ b, (a, b) ∈ l₁.zip l₂ := by
  induction l₁ generalizing l₂ with
  | nil => cases ha
  | cons x xs ih =>
    cases l₂ with
    | nil => simp at hlen
    | cons y ys =>
      rcases List.mem_cons.mp ha with rfl | ha'
      · exact ⟨y, List.mem_cons_self _ _⟩
      · obtain ⟨b, hb⟩ := ih ys (by simpa using hlen) ha'
        exact ⟨b, List.mem_cons_of_mem _ hb⟩

/-- Helper: when the parallel lists of a `MultiplePackageError` have
equal length and every declared unit name is non-empty (package-clause
identifiers are never empty), the file-to-unit lookup yields a
non-empty name exactly for the files of the scan, and any non-default
answer is one of the scan's declared names. -/
theorem fileToPkgName_ne_empty_iff (m : MultiplePackageError) (filename : String)
    (hlen : m.Files.length = m.Packages.length)
    (hne : ∀ p ∈ m.Packages, p ≠ "") :
    (fileToPkgName m filename ≠ "" ↔ filename ∈ m.Files) := by
  unfold fileToPkgName
  cases hlast : ((m.Files.zip m.Packages).filter (fun p => p.1 == filename)).getLast? with
  | none =>
    have hnil : (m.Files.zip m.Packages).filter (fun p => p.1 == filename) = [] :=
      List.getLast?_eq_none_iff.mp hlast
    have hnomem : filename ∉ m.Files := by
      intro hmem
      obtain ⟨b, hb⟩ := exists_zip_pair_of_mem m.Files m.Packages filename hlen hmem
      have : (filename, b) ∈ (m.Files.zip m.Packages).filter (fun p => p.1 == filename) :=
        List.mem_filter.mpr ⟨hb, by simp⟩
      rw [hnil] at this
      cases this
    simp [hnomem]
  | some q =>
    obtain ⟨a, b⟩ := q
    have hq : (a, b) ∈ (m.Files.zip m.Packages).filter (fun p => p.1 == filename) :=
      List.mem_of_mem_getLast? hlast
    have hqzip : (a, b) ∈ m.Files.zip m.Packages := (List.mem_filter.mp hq).1
    have hq1 : a = filename := by
      have := (List.mem_filter.mp hq).2
      simpa using this
    have hq2 : b ∈ m.Packages := (List.of_mem_zip hqzip).2
    have hmem : filename ∈ m.Files := hq1 ▸ (List.of_mem_zip hqzip).1
    simp [hne b hq2, hmem]

/-- C7: multi-package disambiguation fails if and only if the
requested filename is absent from the directory scan's file-to-unit
mapping; when the filename is present, a unit named after the file's
declared unit is returned without error.  The hypotheses state the
invariants of a `build.MultiplePackageError`: `Files` and `Packages`
are parallel lists, and declared package names are non-empty
identifiers. -/
theorem buildPackage_fails_iff_absent_c7 (bpkg : Package) (m : MultiplePackageError) (filename : String)
    (hlen : m.Files.length = m.Packages.length)
    (hne : ∀ p ∈ m.Packages, p ≠ "") :
    ((buildPackageForNamedFileInMultiPackageDir bpkg m filename).isOk = true ↔
      filename ∈ m.Files) ∧
    (∀ pkg', buildPackageForNamedFileInMultiPackageDir bpkg m filename = .ok pkg' →
      pkg'.Name = fileToPkgName m filename) := by
  have hiff := fileToPkgName_ne_empty_iff m filename hlen hne
  constructor
  · rw [← hiff]
    unfold buildPackageForNamedFileInMultiPackageDir
    by_cases h : fileToPkgName m filename = "" <;>
      simp [h, Except.isOk, Except.toBool]
  · intro pkg' hok
    unfold buildPackageForNamedFileInMultiPackageDir at hok
    by_cases h : fileToPkgName m filename = ""
    · simp [h] at hok
    · simp [h] at hok
      rw [← hok]

/-- C7 witness: in the two-unit directory `m1`, the present file
`b.go` disambiguates successfully. -/
theorem buildPackage_fails_iff_absent_c7_witness :
    (buildPackageForNamedFileInMultiPackageDir pkg1 m1 "b.go").isOk = true :=
  (buildPackage_fails_iff_absent_c7 pkg1 m1 "b.go" (by decide)
    (by decide)).1.mpr (by decide)

/-- C1 counterexample: in the two-unit directory `m1`, requesting
`b.go` — which declares the external-test unit `pkg_test` — yields a
unit whose file list is `["a.go"]`: it keeps the file declared only
under `pkg` and drops the requested `pkg_test` file, refuting the
claim that the file list excludes all `pkg`-only files and includes
only files declared under `pkg_test`. -/
theorem buildPackage_xtest_c1_counterexample :
    fileToPkgName m1 "b.go" = "pkg_test" ∧
    fileToPkgName m1 "a.go" = "pkg" ∧
    (buildPackageForNamedFileInMultiPackageDir pkg1 m1 "b.go").toOption.map Package.GoFiles =
      some ["a.go"] := by
  refine ⟨by decide, by decide, by decide⟩

/-- C1 amended: disambiguating on a requested file that belongs to the
external-test unit `name_test` returns a compilation unit named
`name_test` whose file list is filtered by the non-suffixed base name
`name`: it keeps exactly the ordinary files declared under `name` (the
files the external-test unit is compiled against) and does not keep
the files declared under `name_test` itself. -/
theorem buildPackage_xtest_file_c1 (bpkg : Package) (m : MultiplePackageError) (filename : String)
    (hx : fileToPkgName m filename ≠ "")
    (ht : strEndsWith (fileToPkgName m filename) "_test" = true) :
    buildPackageForNamedFileInMultiPackageDir bpkg m filename =
      .ok { bpkg with
            Name := fileToPkgName m filename
            GoFiles := bpkg.GoFiles.filter
              (fun f => fileToPkgName m f == trimSuffix (fileToPkgName m filename) "_test") } := by
  unfold buildPackageForNamedFileInMultiPackageDir filterToFilesInPackage nonXTestPkgName
  simp [hx, ht]

/-- C1 witness: the amended statement evaluated in the two-unit
directory `m1` on the external-test file `b.go`. -/
theorem buildPackage_xtest_file_c1_witness :
    buildPackageForNamedFileInMultiPackageDir pkg1 m1 "b.go" =
      .ok { pkg1 with Name := "pkg_test", GoFiles := ["a.go"] } := by
  have h := buildPackage_xtest_file_c1 pkg1 m1 "b.go" (by decide) (by decide)
  rw [h]
  rfl

/-- Helper: overwriting the freshly appended last cell of a store. -/
theorem set_append_length {α : Type} (l : List α) (a b : α) :
    (l ++ [a]).set l.length b = l ++ [b] := by
  induction l with
  | nil => rfl
  | cons x xs ih => simp [List.set, ih]

/-- C9: against the heap model, disambiguation never mutates the
caller's package descriptor: a successful call leaves the store cell
of the input address (its `Name` and `GoFiles` fields included)
exactly as it was, and returns a freshly allocated address — beyond
the end of the original store — holding the renamed copy with the
freshly built filtered file list. -/
theorem buildPackageHeap_no_mutation_c9 (st : PkgStore) (addr : Nat) (m : MultiplePackageError) (filename : String) (st' : PkgStore) (addr' : Nat)
    (h : buildPackageForNamedFileInMultiPackageDirHeap st addr m filename = .ok (st', addr')) :
    st'[addr]? = st[addr]? ∧ addr' = st.length ∧ addr' ≠ addr ∧
    ∃ orig, st[addr]? = some orig ∧
      st' = st ++ [{ orig with
        Name := fileToPkgName m filename
        GoFiles := filterToFilesInPackage m orig.GoFiles
          (nonXTestPkgName (fileToPkgName m filename)) }] := by
  unfold buildPackageForNamedFileInMultiPackageDirHeap at h
  cases hget : (st : List Package).get? addr with
  | none => rw [hget] at h; cases h
  | some orig =>
    rw [hget] at h
    by_cases hp : fileToPkgName m filename = ""
    · simp [hp] at h
    · simp [hp, set_append_length] at h
      obtain ⟨hst, haddr⟩ := h
      have hlt : addr < st.length := by
        by_contra hge
        push_neg at hge
        rw [List.get?_eq_getElem?, List.getElem?_eq_none hge] at hget
        cases hget
      have hgetElem : st[addr]? = some orig := by
        rw [← List.get?_eq_getElem?]
        exact hget
      subst hst
      subst haddr
      refine ⟨List.getElem?_append_left hlt, rfl, by omega, orig, hgetElem, rfl⟩

/-- C9 witness: the heap-model call on a one-package store leaves the
original cell untouched and allocates the result at the fresh
address `1`. -/
theorem buildPackageHeap_no_mutation_c9_witness :
    buildPackageForNamedFileInMultiPackageDirHeap [pkg1] 0 m1 "b.go" =
      .ok ([pkg1, { pkg1 with Name := "pkg_test", GoFiles := ["a.go"] }], 1) ∧
    ([pkg1, { pkg1 with Name := "pkg_test", GoFiles := ["a.go"] }] : PkgStore)[0]? =
      ([pkg1] : PkgStore)[0]? := by
  have happ : buildPackageForNamedFileInMultiPackageDirHeap [pkg1] 0 m1 "b.go" =
      .ok ([pkg1, { pkg1 with Name := "pkg_test", GoFiles := ["a.go"] }], 1) := by rfl
  exact ⟨happ,
    (buildPackageHeap_no_mutation_c9 [pkg1] 0 m1 "b.go"
      [pkg1, { pkg1 with Name := "pkg_test", GoFiles := ["a.go"] }] 1 happ).1⟩

/-- C5: for every requested (line, column) position outside the file
contents' bounds — line out of range, or column beyond the line's
length — `loadPackage` fails with an invalid-position error carrying a
human-readable reason, returns no package, and returns the `NoPos`
sentinel rather than a valid position handle. -/
theorem loadPackage_invalid_position_c5 (pkg : Package) (contents : List String) (filename : String) (line col : Nat)
    (h : contents[line]? = none ∨ ∃ l, contents[line]? = some l ∧ l.length < col) :
    ∃ why, (why = "line out of range" ∨ why = "column beyond line end") ∧
      loadPackage true filename (.ok pkg) (.ok contents) line col =
        (none, NoPos, some ("invalid position: " ++ filename ++ ":" ++ toString line ++ ":"
          ++ toString col ++ " (" ++ why ++ ")")) := by
  rcases h with hnone | ⟨l, hsome, hlt⟩
  · refine ⟨"line out of range", Or.inl rfl, ?_⟩
    simp [loadPackage, offsetForPosition, hnone]
  · refine ⟨"column beyond line end", Or.inr rfl, ?_⟩
    simp [loadPackage, offsetForPosition, hsome, hlt]

/-- C5 witness: column 5 on the empty first line of a one-line file is
rejected as an invalid position with a human-readable reason. -/
theorem loadPackage_invalid_position_c5_witness :
    ∃ why, (why = "line out of range" ∨ why = "column beyond line end") ∧
      loadPackage true "f.go" (.ok pkg0) (.ok [""]) 0 5 =
        (none, NoPos, some ("invalid position: " ++ "f.go" ++ ":" ++ toString 0 ++ ":"
          ++ toString 5 ++ " (" ++ why ++ ")")) :=
  loadPackage_invalid_position_c5 pkg0 [""] "f.go" 0 5 (Or.inr ⟨"", rfl, by decide⟩)

/-- A token file that does not path-equal the requested `f.go`. -/
def file6 : TokenFile := { name := "other.go", base := 1, size := 10 }

/-- A package whose file set registers only `other.go`. -/
def pkg6 : Package := { PkgPath := "p", Name := "pkg", GoFiles := [], Fset := [file6] }

/-- C6: when no file of the analysis result's file set path-equals the
requested filename, `posForFileOffset` returns the `NoPos` sentinel at
the computed byte offset and `loadPackage` fails with an
invalid-location error naming the file and the offset; and whenever
the file set's first path-equal file is `f`, the returned position is
`f`'s position at the given offset. -/
theorem loadPackage_invalid_location_c6 (pkg : Package) (contents : List String) (filename : String) (line col : Nat) (l : String)
    (hline : contents[line]? = some l) (hcol : col ≤ l.length)
    (hnone : ∀ f ∈ pkg.Fset, PathEqual f.name filename = false) :
    posForFileOffset pkg.Fset filename
        ((contents.take line).foldl (fun acc s => acc + s.length + 1) 0 + col) = NoPos ∧
    loadPackage true filename (.ok pkg) (.ok contents) line col =
      (none, NoPos, some ("invalid location: " ++ filename ++ ":#"
        ++ toString ((contents.take line).foldl (fun acc s => acc + s.length + 1) 0 + col))) ∧
    (∀ (fset : List TokenFile) (off : Nat) (f : TokenFile),
      fset.find? (fun ff => PathEqual ff.name filename) = some f →
      posForFileOffset fset filename off = filePos f off) := by
  have hfind : pkg.Fset.find? (fun ff => PathEqual ff.name filename) = none :=
    List.find?_eq_none.mpr (by intro x hx; simp [hnone x hx])
  have hnotlt : ¬(l.length < col) := not_lt.mpr hcol
  refine ⟨?_, ?_, ?_⟩
  · simp [posForFileOffset, hfind]
  · simp [loadPackage, offsetForPosition, hline, hnotlt, posForFileOffset, hfind, NoPos]
  · intro fset off f hf
    simp [posForFileOffset, hf]

/-- C6 witness: with only `other.go` registered, requesting position
(0, 1) of the two-byte file `f.go` maps to offset 1, which yields the
`NoPos` sentinel and an invalid-location error naming file and
offset. -/
theorem loadPackage_invalid_location_c6_witness :
    posForFileOffset pkg6.Fset "f.go" 1 = NoPos ∧
    loadPackage true "f.go" (.ok pkg6) (.ok ["ab"]) 0 1 =
      (none, NoPos, some ("invalid location: " ++ "f.go" ++ ":#" ++ toString 1)) ∧
    (∀ (fset : List TokenFile) (off : Nat) (f : TokenFile),
      fset.find? (fun ff => PathEqual ff.name "f.go") = some f →
      posForFileOffset fset "f.go" off = filePos f off) := by
  have h := loadPackage_invalid_location_c6 pkg6 ["ab"] "f.go" 0 1 "ab" rfl (by decide) (by decide)
  simpa using h

/-- C2 witness: two linearized callers of the same key increment the
counter once and both receive the stored result `1`. -/
theorem cache_computes_once_c2_witness :
    runCounterGets (List.replicate 2 key0) [] 0 = ([(key0, 1)], 1, List.replicate 2 1) :=
  cache_computes_once_c2 1 key0

/-- C3 witness: the file-list law evaluated at the fixture package. -/
theorem typecheck_file_list_c3_witness :
    typecheckGoFiles bpkg0 =
      (bpkg0.GoFiles ++ bpkg0.TestGoFiles ++
        (if strEndsWith bpkg0.Name "_test" = true then bpkg0.XTestGoFiles else [])).map
        (fun filename => joinPath bpkg0.Dir filename) :=
  typecheck_file_list_c3 bpkg0

/-- C8 amended witness: the span law evaluated at an empty cache. -/
theorem cachedTypecheck_span_every_call_c8_witness :
    (cachedTypecheck false [] bpkg0 (fun _ => (res0, []))).spans =
      [{ name := "langserver-go: typecheck", pkgTag := bpkg0.ImportPath, childOfCaller := true }] :=
  cachedTypecheck_span_every_call_c8 false [] bpkg0 (fun _ => (res0, []))

/-- C10 witness: the panic path evaluated at an empty cache. -/
theorem cachedTypecheck_panic_nil_c10_witness :
    (cachedTypecheck true [] bpkg0 (fun _ => (res0, []))).fset = none ∧
    (cachedTypecheck true [] bpkg0 (fun _ => (res0, []))).prog = none ∧
    (cachedTypecheck true [] bpkg0 (fun _ => (res0, []))).err = none :=
  cachedTypecheck_panic_nil_c10 [] bpkg0 (fun _ => (res0, []))

end Bingo

